import Mathlib

/-!
Verification of the aria-dataset ingestion pipeline (`get_data.py`,
`res/download_convert.py`, `prepare_data.py`) against its natural-language
specification.  The Python sources are shallowly embedded below: pure string
manipulation becomes pure Lean functions on `String`/`List Char`; the
filesystem and the network are abstracted into explicit oracle records whose
Boolean fields give the outcome of each external probe (file existence,
download success, extraction success); fallible code returns `Except` or an
explicit success flag.  All definitions are executable.
-/

/-! ### Python string primitives

The scripts rely on a handful of `str` methods.  Each is modelled directly on
the character list of the string so that every definition reduces by `rfl`.
-/

/-- Model of Python truthiness for an optional string (`None` and `""` are
falsy, every other string is truthy). -/
def pyTruthy : Option String → Bool
  | none => false
  | some s => !(s == "")

/-- Split a character list at every occurrence of `sep`, Python
`str.split(sep)` style: `"".split(sep) == [""]` and separators at the ends
produce empty fields. -/
def splitCharList (sep : Char) : List Char → List (List Char)
  | [] => [[]]
  | c :: cs =>
    let rest := splitCharList sep cs
    if c = sep then [] :: rest
    else
      match rest with
      | [] => [[c]]
      | r :: rs => (c :: r) :: rs

/-- Model of Python `s.split(sep)` for a single-character separator. -/
def pySplit (sep : Char) (s : String) : List String :=
  (splitCharList sep s.data).map String.mk

/-- Model of Python `str.lower` (ASCII case folding, which covers every
token the scripts compare against). -/
def pyLower (s : String) : String :=
  String.mk (s.data.map Char.toLower)

/-- Model of Python `str.capitalize`: first character uppercased, every
remaining character lowercased. -/
def pyCapitalize (s : String) : String :=
  match s.data with
  | [] => ""
  | c :: cs => String.mk (c.toUpper :: cs.map Char.toLower)

/-- The transformation the specification text literally asks for: capitalize
the first letter of the token and leave the rest of the token unchanged. -/
def capFirstOnly (s : String) : String :=
  match s.data with
  | [] => ""
  | c :: cs => String.mk (c.toUpper :: cs)

/-- Model of Python `list.index`: index of the first occurrence, `none` when
absent (`list.index` raises `ValueError` there). -/
def listIndex (x : String) : List String → Option Nat
  | [] => none
  | a :: l => if a = x then some 0 else (listIndex x l).map (· + 1)

/-- Model of Python subscripting `l[n]` on a list: `none` models the
`IndexError` case (negative indices never arise in the scripts). -/
def pyNth {α : Type} : List α → Nat → Option α
  | [], _ => none
  | a :: _, 0 => some a
  | _ :: l, n + 1 => pyNth l n

/-- Everything after the first occurrence of `x`, `none` when `x` is absent.
Used to state the specification-level description of the label grammar. -/
def afterFirst (x : String) : List String → Option (List String)
  | [] => none
  | a :: l => if a = x then some l else afterFirst x l

/-- Boolean list-prefix test on characters. -/
def listPrefixOf : List Char → List Char → Bool
  | [], _ => true
  | _ :: _, [] => false
  | a :: as, b :: bs => a == b && listPrefixOf as bs

/-- Model of Python `str.endswith`. -/
def strEndsWith (s suffix : String) : Bool :=
  listPrefixOf suffix.data.reverse s.data.reverse

/-- Code-point lexicographic comparison of character lists: the order Python
uses to compare strings. -/
def charListLt : List Char → List Char → Bool
  | [], [] => false
  | [], _ :: _ => true
  | _ :: _, [] => false
  | a :: as, b :: bs =>
    if a.val < b.val then true
    else if b.val < a.val then false
    else charListLt as bs

/-- Non-strict code-point order on strings, the comparison behind Python
`sorted`. -/
def strLe (a b : String) : Bool :=
  charListLt a.data b.data || a == b

/-- Insert into a sorted list, keeping earlier-inserted equal elements in
place (stability, as Python `sorted` guarantees). -/
def insertSorted (a : String) : List String → List String
  | [] => [a]
  | b :: l => if strLe a b then a :: b :: l else b :: insertSorted a l

/-- Model of Python `sorted` on a list of strings. -/
def sortStrings (l : List String) : List String :=
  l.foldr insertSorted []

/-- Index of the last `'.'` in a character list. -/
def lastDotIdx : List Char → Option Nat
  | [] => none
  | c :: t =>
    match lastDotIdx t with
    | some i => some (i + 1)
    | none => if c = '.' then some 0 else none

/-- Model of `os.path.splitext(f)[0]` for a bare filename: drop the suffix
starting at the last dot, unless every character before that dot is itself a
dot (so `".jpg"` keeps its "extension"). -/
def splitextBase (f : String) : String :=
  let cs := f.data
  match lastDotIdx cs with
  | none => f
  | some i => if (cs.take i).all (· = '.') then f else String.mk (cs.take i)

/-! ### Label parser (`parse_activity_label`, identical in `get_data.py`
lines 122-137 and `res/download_convert.py` lines 142-157) -/

/-- Body of `parse_activity_label` acting on the already-split token list:
find the first `"release"`, take the next token, skip one extra token when it
is a skeleton/multi-user qualifier, and `str.capitalize` the result; any
`ValueError`/`IndexError` path yields `"Unknown"`. -/
def parseActivityCore (parts : List String) : String :=
  match listIndex "release" parts with
  | none => "Unknown"
  | some release_idx =>
    match pyNth parts (release_idx + 1) with
    | none => "Unknown"
    | some activity_label =>
      if ["skeleton", "multiskeleton", "multiuser"].contains (pyLower activity_label) then
        match pyNth parts (release_idx + 2) with
        | none => "Unknown"
        | some activity_label2 => pyCapitalize activity_label2
      else pyCapitalize activity_label

/-- `parse_activity_label(sequence_id)` from the sources. -/
def parse_activity_label (sequence_id : String) : String :=
  parseActivityCore (pySplit '_' sequence_id)

/-- Specification-level restatement of the (amended) label grammar, phrased
through "the tokens after the first `release`" rather than through indices:
used as the refinement target for the parser. -/
def specActivityCore (parts : List String) : String :=
  match afterFirst "release" parts with
  | none => "Unknown"
  | some [] => "Unknown"
  | some (t :: ts) =>
    if ["skeleton", "multiskeleton", "multiuser"].contains (pyLower t) then
      match ts with
      | [] => "Unknown"
      | t2 :: _ => pyCapitalize t2
    else pyCapitalize t

/-- Specification-level activity-label function. -/
def specParseActivityLabel (sequence_id : String) : String :=
  specActivityCore (pySplit '_' sequence_id)

/-! ### Fetcher (`download_file`, identical in `get_data.py` lines 26-61 and
`res/download_convert.py` lines 28-63)

One attempt of the retry loop either raises before the destination file is
opened (connection failure, non-success status), raises mid-transfer after
part of the body was already streamed to disk (leaving a partial file), or
completes the download, in which case the content either matches the expected
SHA-1 or not.  The destination is abstracted to `Option Bool`: `none` means no
file, `some m` means a file whose content matches the expected checksum iff
`m`.  The trace records the externally visible actions: the `sleep` of the
`except` branch and the `os.remove` after a failed verification. -/

/-- Outcome the environment hands one attempt of the download loop. -/
inductive AttemptOutcome where
  | errorNoWrite : AttemptOutcome
  | errorMidWrite : Bool → AttemptOutcome
  | fullDownload : Bool → AttemptOutcome
deriving DecidableEq

/-- Externally visible events of `download_file`. -/
inductive Ev where
  | sleep : Nat → Ev
  | delete : Ev
deriving DecidableEq

/-- `MAX_RETRIES` constant of both scripts. -/
def MAX_RETRIES : Nat := 3

/-- `RETRY_DELAY` constant of both scripts (seconds). -/
def RETRY_DELAY : Nat := 5

/-- Result of a `download_file` run: returned Boolean, final state of the
destination path, event trace, number of attempts executed. -/
structure DLResult where
  ok : Bool
  file : Option Bool
  events : List Ev
  attempts : Nat
deriving DecidableEq

/-- The `for attempt in range(1, MAX_RETRIES + 1)` loop of `download_file`.
`checkSha` models the `if sha1sum:` truthiness test. -/
def dlGo (checkSha : Bool) : List AttemptOutcome → Option Bool → List Ev → Nat → DLResult
  | [], file, evs, att => ⟨false, file, evs, att⟩
  | o :: rest, file, evs, att =>
    match o with
    | .errorNoWrite => dlGo checkSha rest file (evs ++ [.sleep RETRY_DELAY]) (att + 1)
    | .errorMidWrite m => dlGo checkSha rest (some m) (evs ++ [.sleep RETRY_DELAY]) (att + 1)
    | .fullDownload m =>
      if checkSha then
        if m then ⟨true, some m, evs, att + 1⟩
        else dlGo checkSha rest none (evs ++ [.delete]) (att + 1)
      else ⟨true, some m, evs, att + 1⟩

/-- `download_file(url, dest_path, sha1sum)`: at most `MAX_RETRIES` attempts,
starting with no file at the destination. -/
def download_file (checkSha : Bool) (outcomes : List AttemptOutcome) : DLResult :=
  dlGo checkSha (outcomes.take MAX_RETRIES) none [] 0

/-- An attempt after which the loop returns `True`: a completed download that
either needs no verification or passes it. -/
def stopsAfter (checkSha : Bool) : AttemptOutcome → Bool
  | .fullDownload m => !checkSha || m
  | _ => false

/-- The attempts the loop actually executes: the given attempts up to and
including the first one that returns. -/
def executedAttempts (checkSha : Bool) : List AttemptOutcome → List AttemptOutcome
  | [] => []
  | o :: rest => o :: (if stopsAfter checkSha o then [] else executedAttempts checkSha rest)

/-- Events one executed attempt contributes: the `except` branch sleeps, a
failed verification deletes, everything else is silent. -/
def evOf (checkSha : Bool) : AttemptOutcome → List Ev
  | .errorNoWrite => [.sleep RETRY_DELAY]
  | .errorMidWrite _ => [.sleep RETRY_DELAY]
  | .fullDownload m => if checkSha && !m then [.delete] else []

/-! ### Registry records and pipeline actions

A registry entry maps a sequence id to asset descriptors.  `Option` on the
descriptor models presence of the corresponding dict key; `Option` on each
field models `dict.get` returning `None`. -/

/-- Asset descriptor (`video_main_rgb` / `main_groundtruth` value). -/
structure AssetInfo where
  filename : Option String
  download_url : Option String
  sha1sum : Option String
deriving DecidableEq

/-- The empty dict `{}` used as `dict.get` default. -/
def AssetInfo.empty : AssetInfo := ⟨none, none, none⟩

/-- One entry of the sequence registry. -/
structure SequenceData where
  video_main_rgb : Option AssetInfo
  main_groundtruth : Option AssetInfo
deriving DecidableEq

/-- Python exceptions that can escape the per-sequence code. -/
inductive PyErr where
  | keyError : PyErr
deriving DecidableEq

/-- The download / extraction operations an orchestrator can perform. -/
inductive StepAction where
  | downloadVideo : StepAction
  | extractFrames : StepAction
  | downloadGroundtruth : StepAction
  | extractGroundtruth : StepAction
deriving DecidableEq

/-! ### `get_data.py` orchestrator (`process_sequence`, lines 161-241, and
the driver loop of `main`, lines 243-267) -/

namespace GetData

/-- Filesystem/network oracle for one `get_data.py` sequence: the value each
external probe would report, in source order. -/
structure Env where
  videoExists : Bool
  downloadVideoOk : Bool
  framesDirEmpty : Bool
  extractFramesOk : Bool
  gtExists : Bool
  downloadGtOk : Bool
  annotationsEmpty : Bool
  extractZipOk : Bool
deriving DecidableEq

/-- Result of a normally-returning `process_sequence` call: the returned
Boolean and the download/extraction operations performed. -/
structure Res where
  ok : Bool
  actions : List StepAction
deriving DecidableEq

/-- Ground-truth extraction step (`if not os.listdir(annotations_dir)`,
lines 227-233). -/
def gtExtractStep (env : Env) (acts : List StepAction) : Res :=
  if env.annotationsEmpty then
    if !env.extractZipOk then ⟨false, acts ++ [.extractGroundtruth]⟩
    else ⟨true, acts ++ [.extractGroundtruth]⟩
  else ⟨true, acts⟩

/-- Ground-truth section (lines 210-235): download when absent, then
extract; a missing filename or URL only logs a warning. -/
def gtStep (sequence_data : SequenceData) (env : Env) (acts : List StepAction) : Res :=
  let groundtruth_info := sequence_data.main_groundtruth.getD AssetInfo.empty
  if pyTruthy groundtruth_info.filename && pyTruthy groundtruth_info.download_url then
    if !env.gtExists then
      if !env.downloadGtOk then ⟨false, acts ++ [.downloadGroundtruth]⟩
      else gtExtractStep env (acts ++ [.downloadGroundtruth])
    else gtExtractStep env acts
  else ⟨true, acts⟩

/-- Frame-extraction step (lines 199-206), reached only inside the
video branch. -/
def framesStep (sequence_data : SequenceData) (env : Env) (acts : List StepAction) : Res :=
  if env.framesDirEmpty then
    if !env.extractFramesOk then ⟨false, acts ++ [.extractFrames]⟩
    else gtStep sequence_data env (acts ++ [.extractFrames])
  else gtStep sequence_data env acts

/-- Video section (lines 189-208): when filename and URL are truthy,
download if absent then extract frames; otherwise only log a warning and
fall through to the ground-truth section. -/
def videoStep (sequence_data : SequenceData) (video_info : AssetInfo) (env : Env) : Res :=
  if pyTruthy video_info.filename && pyTruthy video_info.download_url then
    if !env.videoExists then
      if !env.downloadVideoOk then ⟨false, [StepAction.downloadVideo]⟩
      else framesStep sequence_data env [StepAction.downloadVideo]
    else framesStep sequence_data env []
  else gtStep sequence_data env []

/-- `process_sequence(sequence_id, sequence_data, dataset_dir)` of
`get_data.py`.  Line 184 reads `sequence_data.get('video_main_rgb', {})`
but line 187 subscripts `sequence_data['video_main_rgb']` directly, so a
registry entry without that key raises `KeyError` before any step runs. -/
def process_sequence (sequence_data : SequenceData) (env : Env) : Except PyErr Res :=
  let video_info := sequence_data.video_main_rgb.getD AssetInfo.empty
  match sequence_data.video_main_rgb with
  | none => .error .keyError
  | some _ => .ok (videoStep sequence_data video_info env)

/-- Whether a `process_sequence` call reported failure by returning `False`
(an escaped exception is not a `False` result). -/
def isFailureResult : Except PyErr Res → Bool
  | .ok r => !r.ok
  | .error _ => false

/-- `extract_frames(video_path, frames_output_dir, num_frames=8)` of
`get_data.py` (lines 94-120): the `ffprobe` duration probe is parsed with
`float(...)`, but the per-timestamp `ffmpeg` invocations are run without
`check=True` and their exit codes, as well as the number of frames actually
written, are never inspected; the function returns `True` whenever the
duration probe parses. -/
def extract_frames (probeOk : Bool) (ffmpegExitOks : List Bool) (framesProduced : Nat) : Bool :=
  if probeOk then true else false

/-- Driver loop of `main` (lines 255-265): stop once the count of
*successful* sequences reaches `max_download`; a raised exception aborts the
loop (there is no handler around `process_sequence`).  Returns
`(started, downloaded)`. -/
def mainLoop (max_download : Int) : List (Except PyErr Bool) → Nat → Nat → Except PyErr (Nat × Nat)
  | [], started, downloaded => .ok (started, downloaded)
  | r :: rest, started, downloaded =>
    if (downloaded : Int) ≥ max_download then .ok (started, downloaded)
    else
      match r with
      | .error e => .error e
      | .ok b => mainLoop max_download rest (started + 1) (if b then downloaded + 1 else downloaded)

/-- `main`'s iteration over the registry, abstracted over the per-sequence
results. -/
def runMain (max_download : Int) (results : List (Except PyErr Bool)) : Except PyErr (Nat × Nat) :=
  mainLoop max_download results 0 0

end GetData

/-! ### `res/download_convert.py` orchestrator (`process_sequence`, lines
181-268, `extract_frames`, lines 97-140, and the cap handling of `main`,
lines 368-382) -/

namespace DownloadConvert

/-- Filesystem/network oracle for one `download_convert.py` sequence.
`compositeLabel` is the string `generate_composite_label` would return (that
function catches all of its exceptions, so it is a total oracle). -/
structure Env where
  videoExists : Bool
  downloadVideoOk : Bool
  framesMatchExist : Bool
  extractFramesOk : Bool
  gtExists : Bool
  downloadGtOk : Bool
  annotationsEmpty : Bool
  extractZipOk : Bool
  compositeLabel : String
deriving DecidableEq

/-- One row of the metadata accumulator (`metadata_list.append`, lines
262-266). -/
structure MetaRecord where
  sequence_id : String
  activity_label : String
  frames_path : String
deriving DecidableEq

/-- Result of a `process_sequence` call: returned Boolean, metadata
accumulator after the call, operations performed. -/
structure Res where
  ok : Bool
  metadata : List MetaRecord
  actions : List StepAction
deriving DecidableEq

/-- The record appended for a successfully processed sequence: the composite
label when an annotations directory was set up (truthy ground-truth
filename), `"Unknown"` otherwise; `frames_path` is always `'images'`. -/
def mkRecord (sequence_id : String) (sequence_data : SequenceData) (env : Env) : MetaRecord :=
  let gi := sequence_data.main_groundtruth.getD AssetInfo.empty
  ⟨sequence_id, if pyTruthy gi.filename then env.compositeLabel else "Unknown", "images"⟩

/-- Success epilogue (lines 257-268): append the metadata record and return
`True`. -/
def finishStep (sequence_id : String) (sequence_data : SequenceData) (env : Env)
    (metadata : List MetaRecord) (acts : List StepAction) : Res :=
  ⟨true, metadata ++ [mkRecord sequence_id sequence_data env], acts⟩

/-- Ground-truth extraction (lines 247-253). -/
def gtExtract (sequence_id : String) (sequence_data : SequenceData) (env : Env)
    (metadata : List MetaRecord) (acts : List StepAction) : Res :=
  if env.annotationsEmpty then
    if !env.extractZipOk then ⟨false, metadata, acts ++ [.extractGroundtruth]⟩
    else finishStep sequence_id sequence_data env metadata (acts ++ [.extractGroundtruth])
  else finishStep sequence_id sequence_data env metadata acts

/-- Ground-truth section (lines 237-255): with truthy filename and URL,
download when absent then extract; otherwise only a warning. -/
def gtSection (sequence_id : String) (sequence_data : SequenceData) (env : Env)
    (metadata : List MetaRecord) (acts : List StepAction) : Res :=
  let gi := sequence_data.main_groundtruth.getD AssetInfo.empty
  if pyTruthy gi.filename && pyTruthy gi.download_url then
    if !env.gtExists then
      if !env.downloadGtOk then ⟨false, metadata, acts ++ [.downloadGroundtruth]⟩
      else gtExtract sequence_id sequence_data env metadata (acts ++ [.downloadGroundtruth])
    else gtExtract sequence_id sequence_data env metadata acts
  else finishStep sequence_id sequence_data env metadata acts

/-- Frame-extraction section (lines 226-235): skipped when frames matching
the sequence's glob pattern already exist. -/
def framesSection (sequence_id : String) (sequence_data : SequenceData) (env : Env)
    (metadata : List MetaRecord) (acts : List StepAction) : Res :=
  if !env.framesMatchExist then
    if !env.extractFramesOk then ⟨false, metadata, acts ++ [.extractFrames]⟩
    else gtSection sequence_id sequence_data env metadata (acts ++ [.extractFrames])
  else gtSection sequence_id sequence_data env metadata acts

/-- `process_sequence(sequence_id, sequence_data, dataset_dir,
metadata_list, fps)` of `download_convert.py`: missing video filename or URL
returns `False` immediately (lines 202-204); then download video when
absent, extract frames, handle ground truth, and append the metadata
record. -/
def process_sequence (sequence_id : String) (sequence_data : SequenceData) (env : Env)
    (metadata_list : List MetaRecord) : Res :=
  let video_info := sequence_data.video_main_rgb.getD AssetInfo.empty
  if !(pyTruthy video_info.filename && pyTruthy video_info.download_url) then
    ⟨false, metadata_list, []⟩
  else
    if !env.videoExists then
      if !env.downloadVideoOk then ⟨false, metadata_list, [StepAction.downloadVideo]⟩
      else framesSection sequence_id sequence_data env metadata_list [StepAction.downloadVideo]
    else framesSection sequence_id sequence_data env metadata_list []

/-- Whether the environment reports success for a performed operation. -/
def actionOk (env : Env) : StepAction → Bool
  | .downloadVideo => env.downloadVideoOk
  | .extractFrames => env.extractFramesOk
  | .downloadGroundtruth => env.downloadGtOk
  | .extractGroundtruth => env.extractZipOk

/-- `extract_frames(video_path, frames_output_dir, fps, sequence_id)` of
`download_convert.py` (lines 97-140): `ffmpeg` is run with `check=True`, so
a non-zero exit raises `CalledProcessError` and returns `False`; afterwards
an empty glob of extracted frames raises `ValueError` and returns `False`;
otherwise `True`. -/
def extract_frames (ffmpegExitOk : Bool) (framesProduced : Nat) : Bool :=
  if !ffmpegExitOk then false
  else if framesProduced == 0 then false
  else true

/-- Cap handling of `main` (lines 368-382): `None` means process everything;
a non-positive cap is fatal (`sys.exit(1)`, modelled as `.error ()`); a
positive cap slices the registry, so exactly `min cap total` sequences are
started, independent of per-sequence failures. -/
def mainCap (max_download : Option Int) (total : Nat) : Except Unit Nat :=
  match max_download with
  | none => .ok total
  | some v => if v ≤ 0 then .error () else .ok (min v.toNat total)

end DownloadConvert

namespace DownloadConvert

/-! ### Manifest builder (`convert_metadata_to_llava_json`, lines 270-343)

A metadata row is processed against the filesystem: `none` for the frames
directory models `os.path.isdir` returning false; otherwise the directory
listing is given.  `fileStillExists` models the per-image `os.path.exists`
re-check (line 323); on an unchanging filesystem it is constantly true for
listed files. -/

/-- One element of the output JSON array; the conversation pair is fixed, so
only its answer (the activity label) is carried. -/
structure Sample where
  id : String
  image : String
  answer : String
deriving DecidableEq

/-- The extension filter of line 306:
`f.lower().endswith(('.png', '.jpg', '.jpeg'))`. -/
def recognizedImage (f : String) : Bool :=
  strEndsWith (pyLower f) ".png" || strEndsWith (pyLower f) ".jpg" ||
    strEndsWith (pyLower f) ".jpeg"

/-- The sample built for one frame file (lines 314-343): the id concatenates
the sequence id and the frame file's base name, the image path joins the
row's frames path with the file name. -/
def mkSample (row : MetaRecord) (frame_file : String) : Sample :=
  ⟨row.sequence_id ++ "_" ++ splitextBase frame_file,
   row.frames_path ++ "/" ++ frame_file, row.activity_label⟩

/-- Manifest entries one metadata row contributes (lines 286-343): skip the
row when the frames directory is missing; otherwise list, filter by
recognized image extensions, sort by filename, re-check existence of each
file and emit one sample per remaining file. -/
def entriesForRecord (row : MetaRecord) (dirListing : Option (List String))
    (fileStillExists : String → Bool) : List Sample :=
  match dirListing with
  | none => []
  | some files =>
    ((sortStrings (files.filter recognizedImage)).filter fileStillExists).map (mkSample row)

/-- `convert_metadata_to_llava_json` over the parsed CSV rows, each paired
with the state of its frames directory. -/
def convert_metadata_to_llava_json
    (rows : List (MetaRecord × Option (List String)))
    (fileStillExists : String → Bool) : List Sample :=
  rows.flatMap (fun rl => entriesForRecord rl.1 rl.2 fileStillExists)

end DownloadConvert

/-! ### `prepare_data.py` (JSONL preparation pass) -/

namespace PrepareData

/-- One entry of `instances.json`: only the fields the pass reads. -/
structure InstanceInfo where
  instance_name : String
  motion_type : Option String
deriving DecidableEq

/-- Filesystem oracle for one sequence of the preparation pass.
`instancesFile` is the parsed `instances.json` (`none` when the file is
missing); `bboxUids` is the `object_uid` column of `2d_bounding_box.csv`
rendered as strings (`none` when the file is missing). -/
structure PrepFS where
  annotationsDirExists : Bool
  framesDirExists : Bool
  framesListing : List String
  instancesFile : Option (List (String × InstanceInfo))
  bboxUids : Option (List String)

/-- Uids of instances whose `motion_type` is case-insensitively `dynamic`
(line 79: `info.get('motion_type', '').lower() == 'dynamic'`). -/
def dynamicKeys (instances : List (String × InstanceInfo)) : List String :=
  (instances.filter (fun p => pyLower (p.2.motion_type.getD "") == "dynamic")).map Prod.fst

/-- First-occurrence deduplication, the order `pandas.Series.unique`
keeps. -/
def firstDedupGo : List String → List String → List String
  | [], _ => []
  | a :: t, seen => if seen.contains a then firstDedupGo t seen else a :: firstDedupGo t (a :: seen)

/-- `unique()` on a list of uids. -/
def firstDedup (l : List String) : List String :=
  firstDedupGo l []

/-- Name lookup in the dynamic-objects dict; every uid passed in is drawn
from that dict's keys, so the default is unreachable. -/
def lookupName (instances : List (String × InstanceInfo)) (uid : String) : String :=
  match instances.find? (fun p => p.1 == uid) with
  | some p => p.2.instance_name
  | none => ""

/-- `list_dynamic_objects_with_annotations(annotation_dir)` (lines 55-98):
empty dict when either annotation file is missing or no instance is dynamic;
otherwise the dynamic uids present in the bounding-box csv, deduplicated in
first-occurrence order, with their instance names. -/
def list_dynamic_objects_with_annotations
    (instancesFile : Option (List (String × InstanceInfo)))
    (bboxUids : Option (List String)) : List (String × String) :=
  match instancesFile, bboxUids with
  | none, _ => []
  | some _, none => []
  | some instances, some uids =>
    let dynamic_objects := dynamicKeys instances
    if dynamic_objects.isEmpty then []
    else
      let dynamic_present := firstDedup (uids.filter (fun u => dynamic_objects.contains u))
      dynamic_present.map (fun uid => (uid, lookupName instances uid))

/-- `create_jsonl_entry` (lines 118-165) reduced to whether it writes its
entry: it re-lists the `.jpg` frames and skips unless exactly 8 are
present. -/
def create_jsonl_entry (framesListing : List String) : Bool :=
  if (sortStrings (framesListing.filter (fun f => strEndsWith f ".jpg"))).length != 8 then
    false
  else true

/-- Loop body of `prepare_dataset` (lines 181-207) for one sequence:
whether the sequence contributes a JSONL entry. -/
def prepareSeq (fs : PrepFS) : Bool :=
  if !(fs.annotationsDirExists && fs.framesDirExists) then false
  else if (sortStrings (fs.framesListing.filter
      (fun f => strEndsWith f ".jpg"))).length != 8 then false
  else if (list_dynamic_objects_with_annotations fs.instancesFile fs.bboxUids).isEmpty then
    false
  else create_jsonl_entry fs.framesListing

/-- The whole pass: every sequence directory is examined, none aborts it. -/
def prepare_dataset (seqs : List PrepFS) : List Bool :=
  seqs.map prepareSeq

/-- The gating condition as the specification phrases it: both annotation
files present and some `object_uid` of the bounding-box csv belongs to a
dynamic instance. -/
def dynamicPresentBool (instancesFile : Option (List (String × InstanceInfo)))
    (bboxUids : Option (List String)) : Bool :=
  match instancesFile, bboxUids with
  | some instances, some uids => uids.any (fun u => (dynamicKeys instances).contains u)
  | _, _ => false

end PrepareData

/-- Invariant carried through the steps of `DownloadConvert.process_sequence`:
relative to a metadata accumulator `md` and already-performed operations
`acts`, a step result either reports failure with the accumulator untouched,
or reports success having appended exactly the sequence's record, every
operation it performed beyond `acts` having succeeded. -/
def DownloadConvert.StepSpec (env : DownloadConvert.Env) (md : List DownloadConvert.MetaRecord)
    (rec : DownloadConvert.MetaRecord) (acts : List StepAction)
    (r : DownloadConvert.Res) : Prop :=
  (r.ok = false → r.metadata = md) ∧
  (r.ok = true → r.metadata = md ++ [rec] ∧
    ∀ a ∈ r.actions, a ∈ acts ∨ DownloadConvert.actionOk env a = true)

/-! ## Helper lemmas -/

theorem pyNth_eq_head_drop {α : Type} (l : List α) (n : Nat) :
    pyNth l n = (l.drop n).head? := by
  induction l generalizing n with
  | nil => cases n <;> rfl
  | cons a t ih => cases n with
    | zero => rfl
    | succ m => simpa [pyNth] using ih m

theorem afterFirst_eq (x : String) (l : List String) :
    afterFirst x l = (listIndex x l).map (fun i => l.drop (i + 1)) := by
  induction l with
  | nil => rfl
  | cons a t ih =>
    by_cases h : a = x
    · simp [afterFirst, listIndex, h]
    · simp only [afterFirst, listIndex, if_neg h, ih, Option.map_map]
      rfl

theorem parseActivityCore_eq_spec (parts : List String) :
    parseActivityCore parts = specActivityCore parts := by
  unfold parseActivityCore specActivityCore
  rw [afterFirst_eq]
  cases hidx : listIndex "release" parts with
  | none => rfl
  | some i =>
    simp only [Option.map_some']
    rw [pyNth_eq_head_drop, pyNth_eq_head_drop]
    cases hd : parts.drop (i + 1) with
    | nil => rfl
    | cons t ts =>
      have hts : parts.drop (i + 2) = ts := by
        have h1 : List.drop 1 (parts.drop (i + 1)) = parts.drop (i + 2) := by
          rw [List.drop_drop]
        rw [hd] at h1
        simpa using h1.symm
      rw [hts]
      cases ts <;> rfl

theorem executedAttempts_length_le (cs : Bool) (l : List AttemptOutcome) :
    (executedAttempts cs l).length ≤ l.length := by
  induction l with
  | nil => simp [executedAttempts]
  | cons o rest ih =>
    by_cases h : stopsAfter cs o = true
    · simp [executedAttempts, h]
    · simp only [executedAttempts, if_neg h, List.length_cons]
      omega

theorem dlGo_spec (cs : Bool) (outs : List AttemptOutcome) (file : Option Bool)
    (evs : List Ev) (att : Nat) :
    (dlGo cs outs file evs att).attempts = att + (executedAttempts cs outs).length ∧
    (dlGo cs outs file evs att).events = evs ++ (executedAttempts cs outs).flatMap (evOf cs) ∧
    (dlGo cs outs file evs att).ok = outs.any (stopsAfter cs) ∧
    (cs = true → (dlGo cs outs file evs att).file = some false →
      (AttemptOutcome.errorMidWrite false ∈ executedAttempts cs outs ∨ file = some false)) := by
  induction outs generalizing file evs att with
  | nil =>
    refine ⟨by simp [dlGo, executedAttempts], by simp [dlGo, executedAttempts],
      by simp [dlGo], fun _ h => Or.inr (by simpa [dlGo] using h)⟩
  | cons o rest ih =>
    cases o with
    | errorNoWrite =>
      obtain ⟨h1, h2, h3, h4⟩ := ih file (evs ++ [Ev.sleep RETRY_DELAY]) (att + 1)
      refine ⟨?_, ?_, ?_, ?_⟩
      · simp [dlGo, executedAttempts, stopsAfter, h1]; try omega
      · simp [dlGo, executedAttempts, stopsAfter, evOf, h2]
      · simp [dlGo, stopsAfter, h3]
      · intro hcs hf
        rcases h4 hcs (by simpa [dlGo] using hf) with h | h
        · exact Or.inl (by simp [executedAttempts, stopsAfter, h])
        · exact Or.inr h
    | errorMidWrite m =>
      obtain ⟨h1, h2, h3, h4⟩ := ih (some m) (evs ++ [Ev.sleep RETRY_DELAY]) (att + 1)
      refine ⟨?_, ?_, ?_, ?_⟩
      · simp [dlGo, executedAttempts, stopsAfter, h1]; try omega
      · simp [dlGo, executedAttempts, stopsAfter, evOf, h2]
      · simp [dlGo, stopsAfter, h3]
      · intro hcs hf
        rcases h4 hcs (by simpa [dlGo] using hf) with h | h
        · exact Or.inl (by simp [executedAttempts, stopsAfter, h])
        · have hm : m = false := by injection h
          subst hm
          exact Or.inl (by simp [executedAttempts, stopsAfter])
    | fullDownload m =>
      cases cs with
      | true =>
        cases m with
        | true =>
          refine ⟨by simp [dlGo, executedAttempts, stopsAfter],
            by simp [dlGo, executedAttempts, stopsAfter, evOf],
            by simp [dlGo, stopsAfter], ?_⟩
          intro _ hf
          simp [dlGo] at hf
        | false =>
          obtain ⟨h1, h2, h3, h4⟩ := ih none (evs ++ [Ev.delete]) (att + 1)
          refine ⟨?_, ?_, ?_, ?_⟩
          · simp [dlGo, executedAttempts, stopsAfter, h1]; try omega
          · simp [dlGo, executedAttempts, stopsAfter, evOf, h2]
          · simp [dlGo, stopsAfter, h3]
          · intro hcs hf
            rcases h4 hcs (by simpa [dlGo] using hf) with h | h
            · exact Or.inl (by simp [executedAttempts, stopsAfter, h])
            · simp at h
      | false =>
        refine ⟨by simp [dlGo, executedAttempts, stopsAfter],
          by simp [dlGo, executedAttempts, stopsAfter, evOf],
          by simp [dlGo, stopsAfter], ?_⟩
        intro hcs _
        cases hcs

namespace DownloadConvert

theorem stepSpec_extend (env : Env) (md : List MetaRecord) (rec : MetaRecord)
    (acts : List StepAction) (a' : StepAction) (r : Res)
    (hok : actionOk env a' = true)
    (h : StepSpec env md rec (acts ++ [a']) r) : StepSpec env md rec acts r := by
  obtain ⟨h1, h2⟩ := h
  refine ⟨h1, fun ho => ⟨(h2 ho).1, fun x hx => ?_⟩⟩
  rcases (h2 ho).2 x hx with hm | hk
  · rcases List.mem_append.mp hm with h | h
    · exact Or.inl h
    · simp only [List.mem_singleton] at h
      subst h
      exact Or.inr hok
  · exact Or.inr hk

theorem gtExtract_stepSpec (sid : String) (d : SequenceData) (env : Env)
    (md : List MetaRecord) (acts : List StepAction) :
    StepSpec env md (mkRecord sid d env) acts (gtExtract sid d env md acts) := by
  unfold gtExtract finishStep StepSpec
  cases hae : env.annotationsEmpty with
  | false =>
    refine ⟨by simp, fun _ => ⟨rfl, fun a ha => Or.inl ha⟩⟩
  | true =>
    cases hez : env.extractZipOk with
    | false => exact ⟨fun _ => by simp [hez], fun ho => by simp [hez] at ho⟩
    | true =>
      refine ⟨by simp [hez], fun _ => ⟨by simp [hez], fun a ha => ?_⟩⟩
      simp only [hez, Bool.not_true, Bool.false_eq_true, if_false] at ha
      rcases List.mem_append.mp ha with h | h
      · exact Or.inl h
      · simp only [List.mem_singleton] at h
        subst h
        exact Or.inr (by simp [actionOk, hez])

theorem gtSection_stepSpec (sid : String) (d : SequenceData) (env : Env)
    (md : List MetaRecord) (acts : List StepAction) :
    StepSpec env md (mkRecord sid d env) acts (gtSection sid d env md acts) := by
  unfold gtSection
  by_cases hgt : (pyTruthy (d.main_groundtruth.getD AssetInfo.empty).filename &&
      pyTruthy (d.main_groundtruth.getD AssetInfo.empty).download_url) = true
  · simp only [hgt, if_true]
    cases hg : env.gtExists with
    | true =>
      simp only [Bool.not_true, Bool.false_eq_true, if_false]
      exact gtExtract_stepSpec sid d env md acts
    | false =>
      simp only [Bool.not_false, if_true]
      cases hdg : env.downloadGtOk with
      | false =>
        exact ⟨fun _ => rfl, fun ho => by simp at ho⟩
      | true =>
        simp only [Bool.not_true, Bool.false_eq_true, if_false]
        exact stepSpec_extend env md _ acts _ _ (by simp [actionOk, hdg])
          (gtExtract_stepSpec sid d env md (acts ++ [.downloadGroundtruth]))
  · simp only [Bool.not_eq_true] at hgt
    simp only [hgt, Bool.false_eq_true, if_false, finishStep]
    exact ⟨by simp, fun _ => ⟨rfl, fun a ha => Or.inl ha⟩⟩

theorem framesSection_stepSpec (sid : String) (d : SequenceData) (env : Env)
    (md : List MetaRecord) (acts : List StepAction) :
    StepSpec env md (mkRecord sid d env) acts (framesSection sid d env md acts) := by
  unfold framesSection
  cases hfm : env.framesMatchExist with
  | true =>
    simp only [Bool.not_true, Bool.false_eq_true, if_false]
    exact gtSection_stepSpec sid d env md acts
  | false =>
    simp only [Bool.not_false, if_true]
    cases hef : env.extractFramesOk with
    | false => exact ⟨fun _ => rfl, fun ho => by simp at ho⟩
    | true =>
      simp only [Bool.not_true, Bool.false_eq_true, if_false]
      exact stepSpec_extend env md _ acts _ _ (by simp [actionOk, hef])
        (gtSection_stepSpec sid d env md (acts ++ [.extractFrames]))

theorem process_sequence_stepSpec (sid : String) (d : SequenceData) (env : Env)
    (md : List MetaRecord) :
    StepSpec env md (mkRecord sid d env) [] (process_sequence sid d env md) := by
  unfold process_sequence
  by_cases hv : (pyTruthy (d.video_main_rgb.getD AssetInfo.empty).filename &&
      pyTruthy (d.video_main_rgb.getD AssetInfo.empty).download_url) = true
  · simp only [hv, Bool.not_true, Bool.false_eq_true, if_false]
    cases hve : env.videoExists with
    | true =>
      simp only [Bool.not_true, Bool.false_eq_true, if_false]
      exact framesSection_stepSpec sid d env md []
    | false =>
      simp only [Bool.not_false, if_true]
      cases hdv : env.downloadVideoOk with
      | false => exact ⟨fun _ => rfl, fun ho => by simp at ho⟩
      | true =>
        simp only [Bool.not_true, Bool.false_eq_true, if_false]
        exact stepSpec_extend env md _ [] StepAction.downloadVideo _
          (by simp [actionOk, hdv])
          (by simpa using framesSection_stepSpec sid d env md [.downloadVideo])
  · simp only [Bool.not_eq_true] at hv
    simp only [hv, Bool.not_false, if_true]
    exact ⟨fun _ => rfl, fun ho => by simp at ho⟩

end DownloadConvert

theorem insertSorted_perm (a : String) (l : List String) :
    (insertSorted a l).Perm (a :: l) := by
  induction l with
  | nil => exact List.Perm.refl _
  | cons b t ih =>
    by_cases h : strLe a b = true
    · simp [insertSorted, h]
    · simp only [insertSorted, h, Bool.false_eq_true, if_false]
      exact (List.Perm.cons b ih).trans (List.Perm.swap a b t)

theorem sortStrings_perm (l : List String) : (sortStrings l).Perm l := by
  induction l with
  | nil => exact List.Perm.refl _
  | cons a t ih =>
    exact (insertSorted_perm a (sortStrings t)).trans (List.Perm.cons a ih)

theorem length_sortStrings (l : List String) : (sortStrings l).length = l.length :=
  (sortStrings_perm l).length_eq

theorem filter_const_true (l : List String) : l.filter (fun _ => true) = l := by
  induction l with
  | nil => rfl
  | cons a t ih => simp [List.filter, ih]

theorem string_data_append (s t : String) : (s ++ t).data = s.data ++ t.data := by
  cases s
  cases t
  rfl

theorem string_append_left_cancel {s a b : String} (h : s ++ a = s ++ b) : a = b := by
  have hd : (s ++ a).data = (s ++ b).data := congrArg String.data h
  rw [string_data_append, string_data_append] at hd
  have h2 := List.append_cancel_left hd
  cases a
  cases b
  exact congrArg String.mk h2

theorem isEmpty_map {α β : Type} (f : α → β) (l : List α) :
    (l.map f).isEmpty = l.isEmpty := by
  cases l <;> rfl

theorem firstDedup_isEmpty (l : List String) :
    (PrepareData.firstDedup l).isEmpty = l.isEmpty := by
  cases l <;> simp [PrepareData.firstDedup, PrepareData.firstDedupGo]

theorem filter_isEmpty_eq_not_any (p : String → Bool) (l : List String) :
    (l.filter p).isEmpty = !(l.any p) := by
  induction l with
  | nil => rfl
  | cons a t ih =>
    cases h : p a <;> simp [List.filter, h, ih]

theorem listDyn_isEmpty (i : Option (List (String × PrepareData.InstanceInfo)))
    (b : Option (List String)) :
    (PrepareData.list_dynamic_objects_with_annotations i b).isEmpty =
      !(PrepareData.dynamicPresentBool i b) := by
  cases i with
  | none => rfl
  | some il =>
    cases b with
    | none => rfl
    | some ul =>
      unfold PrepareData.list_dynamic_objects_with_annotations PrepareData.dynamicPresentBool
      by_cases hd : (PrepareData.dynamicKeys il).isEmpty = true
      · have hnil : PrepareData.dynamicKeys il = [] := List.isEmpty_iff.mp hd
        simp [hd, hnil]
      · simp only [hd, Bool.false_eq_true, if_false]
        rw [isEmpty_map, firstDedup_isEmpty, filter_isEmpty_eq_not_any]

theorem mainLoop_downloaded_le (m : Int) (rs : List (Except PyErr Bool)) :
    ∀ (s d : Nat), (d : Int) ≤ max m 0 →
      ∀ s' d', GetData.mainLoop m rs s d = Except.ok (s', d') → (d' : Int) ≤ max m 0 := by
  induction rs with
  | nil =>
    intro s d hd s' d' h
    simp only [GetData.mainLoop, Except.ok.injEq, Prod.mk.injEq] at h
    obtain ⟨_, rfl⟩ := h
    exact hd
  | cons r rest ih =>
    intro s d hd s' d' h
    unfold GetData.mainLoop at h
    by_cases hge : (d : Int) ≥ m
    · simp only [hge, if_true, Except.ok.injEq, Prod.mk.injEq] at h
      obtain ⟨_, rfl⟩ := h
      exact hd
    · simp only [hge, if_false] at h
      cases r with
      | error e => simp at h
      | ok b =>
        refine ih (s + 1) (if b then d + 1 else d) ?_ s' d' h
        have hlt : (d : Int) < m := lt_of_not_ge hge
        cases b <;> simp <;> omega

/-! ## Claim theorems -/

/-- C1 (amended): for every sequence identifier, `parse_activity_label`
splits on `_`, locates the first `release` token, selects the following
token — or the one after it when the following token is case-insensitively
`skeleton`, `multiskeleton` or `multiuser` — and returns that token with its
first character uppercased and all remaining characters lowercased
(`str.capitalize`); when `release` is absent or the required token is out of
range it returns `"Unknown"` and never raises. -/
theorem claim1_parse_activity_label (sequence_id : String) :
    parse_activity_label sequence_id = specParseActivityLabel sequence_id :=
  parseActivityCore_eq_spec (pySplit '_' sequence_id)

/-- C1 counterexample: on `"ADT_release_TV"` the token after `release` is
`"TV"`; the claim's "returned token with its first letter capitalized" is
`"TV"` itself, but the code returns `str.capitalize`'s `"Tv"`, which
lowercases the rest of the token. -/
theorem claim1_counterexample :
    parse_activity_label "ADT_release_TV" = "Tv" ∧
    capFirstOnly "TV" = "TV" ∧ ("Tv" : String) ≠ "TV" :=
  ⟨rfl, rfl, by decide⟩

/-- C2 (amended): `download_file` makes at most `MAX_RETRIES` (3) attempts
and then returns `False` rather than raising; its event trace is exactly the
concatenation of the per-attempt events — a `sleep RETRY_DELAY` for every
transport error, a `delete` (with no sleep) for every completed download
that fails verification, nothing for a verified success; it returns `True`
iff some executed attempt completes with a passing (or unchecked) checksum;
and when verification is requested, a file failing the checksum can remain
at the destination only as the partial residue of a transfer that errored
mid-write — never as a fully downloaded, verification-failed file. -/
theorem claim2_download_file (checkSha : Bool) (outcomes : List AttemptOutcome) :
    (download_file checkSha outcomes).attempts ≤ MAX_RETRIES ∧
    (download_file checkSha outcomes).events =
      (executedAttempts checkSha (outcomes.take MAX_RETRIES)).flatMap (evOf checkSha) ∧
    (download_file checkSha outcomes).ok =
      (outcomes.take MAX_RETRIES).any (stopsAfter checkSha) ∧
    (checkSha = true → (download_file checkSha outcomes).file = some false →
      AttemptOutcome.errorMidWrite false ∈
        executedAttempts checkSha (outcomes.take MAX_RETRIES)) := by
  obtain ⟨h1, h2, h3, h4⟩ := dlGo_spec checkSha (outcomes.take MAX_RETRIES) none [] 0
  refine ⟨?_, by simpa [download_file] using h2, h3, fun hcs hf => ?_⟩
  · rw [download_file, h1]
    have ha := executedAttempts_length_le checkSha (outcomes.take MAX_RETRIES)
    have hb : (outcomes.take MAX_RETRIES).length ≤ MAX_RETRIES := by
      rw [List.length_take]
      omega
    omega
  · rcases h4 hcs hf with h | h
    · exact h
    · simp at h

/-- C2 witness: a single mid-transfer error leaves a mismatched partial file,
exercising the hypotheses of `claim2_download_file`. -/
theorem claim2_witness :
    AttemptOutcome.errorMidWrite false ∈
      executedAttempts true ([AttemptOutcome.errorMidWrite false].take MAX_RETRIES) :=
  (claim2_download_file true [AttemptOutcome.errorMidWrite false]).2.2.2 rfl rfl

/-- C2 counterexample: with an expected checksum, two mismatching downloads
followed by a mid-transfer error yield three attempts with two deletes and
only one sleep — no delay follows either checksum mismatch, although the
claim requires a fixed delay before each retry — and a file with a
mismatched checksum (the partial transfer) remains at the destination. -/
theorem claim2_counterexample :
    download_file true
        [AttemptOutcome.fullDownload false, AttemptOutcome.fullDownload false,
          AttemptOutcome.errorMidWrite false] =
      ⟨false, some false, [Ev.delete, Ev.delete, Ev.sleep RETRY_DELAY], 3⟩ ∧
    (download_file true
        [AttemptOutcome.fullDownload false, AttemptOutcome.fullDownload false,
          AttemptOutcome.errorMidWrite false]).file = some false ∧
    (download_file true
        [AttemptOutcome.fullDownload false, AttemptOutcome.fullDownload false,
          AttemptOutcome.errorMidWrite false]).events.count (Ev.sleep RETRY_DELAY) = 1 := by
  refine ⟨rfl, rfl, by decide⟩

/-- C3 (code bug): a registry entry without the `video_main_rgb` key is
read defensively at line 184 of `get_data.py` (`sequence_data.get(...)`)
but subscripted directly at line 187 (`sequence_data['video_main_rgb']`),
so `process_sequence` raises `KeyError` instead of returning `False`, and
the driver loop of `main` — which has no handler around the call — aborts
the whole run on that one sequence's data. -/
theorem claim3_missing_video_key_bug (env : GetData.Env) (gt : Option AssetInfo) :
    GetData.process_sequence ⟨none, gt⟩ env = Except.error PyErr.keyError ∧
    GetData.runMain 10 [Except.error PyErr.keyError] = Except.error PyErr.keyError := by
  constructor
  · rfl
  · rfl

/-- C4 (amended): in `download_convert.py` a video descriptor missing its
filename or URL makes `process_sequence` return `False` immediately, with
the metadata accumulator untouched and no operation performed, so the
sequence is excluded from the manifest while the run continues; in
`get_data.py` (see the counterexample) the same condition is only logged
and the sequence is not failed on that account. -/
theorem claim4_missing_video_fields (sequence_id : String) (d : SequenceData)
    (env : DownloadConvert.Env) (md : List DownloadConvert.MetaRecord)
    (h : (pyTruthy (d.video_main_rgb.getD AssetInfo.empty).filename &&
          pyTruthy (d.video_main_rgb.getD AssetInfo.empty).download_url) = false) :
    DownloadConvert.process_sequence sequence_id d env md = ⟨false, md, []⟩ := by
  unfold DownloadConvert.process_sequence
  simp [h]

/-- C4 witness: an entry whose video descriptor is the empty dict is failed
by the `download_convert.py` orchestrator. -/
theorem claim4_witness :
    DownloadConvert.process_sequence "seq" ⟨some AssetInfo.empty, none⟩
        ⟨false, false, false, false, false, false, false, false, "x"⟩ [] =
      ⟨false, [], []⟩ :=
  claim4_missing_video_fields "seq" ⟨some AssetInfo.empty, none⟩
    ⟨false, false, false, false, false, false, false, false, "x"⟩ [] rfl

/-- C4 counterexample: in `get_data.py`, a sequence whose `video_main_rgb`
dict is present but lacks filename and URL is *not* failed: `process_sequence`
logs a warning, skips the video and frame steps, and returns `True`, contrary
to the claim that such a sequence's processing returns failure. -/
theorem claim4_counterexample :
    GetData.process_sequence ⟨some AssetInfo.empty, none⟩
        ⟨false, false, false, false, false, false, false, false⟩ =
      Except.ok ⟨true, []⟩ ∧
    GetData.isFailureResult
        (GetData.process_sequence ⟨some AssetInfo.empty, none⟩
          ⟨false, false, false, false, false, false, false, false⟩) = false :=
  ⟨rfl, rfl⟩

/-- C5 (amended): the fixed-rate sampler of `download_convert.py` succeeds
iff the external `ffmpeg` run exits cleanly and at least one frame results;
the fixed-count sampler of `get_data.py` returns success exactly when the
duration probe parses — the exit codes of its per-timestamp `ffmpeg`
invocations and the number of frames actually produced are never
inspected. -/
theorem claim5_frame_samplers (ffmpegExitOk : Bool) (framesProduced : Nat)
    (probeOk : Bool) (exitOks : List Bool) (n : Nat) :
    DownloadConvert.extract_frames ffmpegExitOk framesProduced =
      (ffmpegExitOk && !(framesProduced == 0)) ∧
    GetData.extract_frames probeOk exitOks n = probeOk := by
  constructor
  · unfold DownloadConvert.extract_frames
    cases ffmpegExitOk <;> cases h : framesProduced == 0 <;> simp [h]
  · unfold GetData.extract_frames
    cases probeOk <;> rfl

/-- C5 counterexample: the fixed-count sampler reports success even when
every `ffmpeg` invocation exits with an error and zero frames result,
because only the duration probe is checked. -/
theorem claim5_counterexample :
    GetData.extract_frames true
        [false, false, false, false, false, false, false, false] 0 = true :=
  rfl

/-- C6 (amended): in `download_convert.py` a positive cap starts exactly
`min cap total` sequences (failures included) and a non-positive cap is
fatal (`sys.exit(1)`); in `get_data.py` the cap bounds the number of
*successful* sequences — the loop stops once that count reaches the cap, so
the number of successes never exceeds `max cap 0`, but additional sequences
are started after failures, and a non-positive cap merely processes zero
sequences and exits normally. -/
theorem claim6_download_cap (m : Int) (n : Nat) (rs : List (Except PyErr Bool)) :
    (0 < m → DownloadConvert.mainCap (some m) n = Except.ok (min m.toNat n)) ∧
    (m ≤ 0 → DownloadConvert.mainCap (some m) n = Except.error ()) ∧
    DownloadConvert.mainCap none n = Except.ok n ∧
    (∀ s d, GetData.runMain m rs = Except.ok (s, d) → (d : Int) ≤ max m 0) ∧
    (m ≤ 0 → GetData.runMain m rs = Except.ok (0, 0)) := by
  refine ⟨fun hm => ?_, fun hm => ?_, rfl, fun s d h => ?_, fun hm => ?_⟩
  · have hnm : ¬ m ≤ 0 := by omega
    simp [DownloadConvert.mainCap, hnm]
  · simp [DownloadConvert.mainCap, hm]
  · exact mainLoop_downloaded_le m rs 0 0 (by simp) s d h
  · unfold GetData.runMain
    cases rs with
    | nil => rfl
    | cons r rest =>
      unfold GetData.mainLoop
      rw [if_pos (by exact_mod_cast by omega)]

/-- C6 witness: cap 2 over 5 registry entries starts 2 sequences in
`download_convert.py`; cap -1 in `get_data.py` processes nothing and
returns normally. -/
theorem claim6_witness :
    DownloadConvert.mainCap (some 2) 5 = Except.ok (min (Int.toNat 2) 5) ∧
    GetData.runMain (-1) [Except.ok true] = Except.ok (0, 0) :=
  ⟨(claim6_download_cap 2 5 []).1 (by decide),
   (claim6_download_cap (-1) 5 [Except.ok true]).2.2.2.2 (by decide)⟩

/-- C6 counterexample: in `get_data.py` with cap 1, a failing first sequence
makes the driver start a second one — two sequences advance past `Init`
although the cap is 1 — and a cap of 0 is not fatal: the loop returns
normally having processed nothing. -/
theorem claim6_counterexample :
    GetData.runMain 1 [Except.ok false, Except.ok true] = Except.ok (2, 1) ∧
    ¬ (2 ≤ 1) ∧
    GetData.runMain 0 [Except.ok true, Except.ok true] = Except.ok (0, 0) := by
  refine ⟨rfl, by omega, rfl⟩

/-- C7: when every idempotency guard reports its output already present —
video file exists, frames present, ground-truth archive exists, annotation
directory non-empty, i.e. the state after a fully successful first run — a
repeated invocation of either orchestrator performs zero downloads and zero
extractions (the `download_convert.py` variant does re-append its metadata
record, but performs no download or extraction operation). -/
theorem claim7_second_run_idempotent (sequence_id : String) (vi : AssetInfo)
    (gt : Option AssetInfo) (genv : GetData.Env) (denv : DownloadConvert.Env)
    (md : List DownloadConvert.MetaRecord)
    (h1 : genv.videoExists = true) (h2 : genv.framesDirEmpty = false)
    (h3 : genv.gtExists = true) (h4 : genv.annotationsEmpty = false)
    (h5 : denv.videoExists = true) (h6 : denv.framesMatchExist = true)
    (h7 : denv.gtExists = true) (h8 : denv.annotationsEmpty = false) :
    GetData.process_sequence ⟨some vi, gt⟩ genv = Except.ok ⟨true, []⟩ ∧
    (DownloadConvert.process_sequence sequence_id ⟨some vi, gt⟩ denv md).actions = [] := by
  constructor
  · unfold GetData.process_sequence GetData.videoStep GetData.framesStep GetData.gtStep
      GetData.gtExtractStep
    simp only [h1, h2, h3, h4, Bool.not_true, Bool.not_false, Bool.false_eq_true,
      if_false, if_true, Option.getD_some]
    split <;> split <;> rfl
  · unfold DownloadConvert.process_sequence DownloadConvert.framesSection
      DownloadConvert.gtSection DownloadConvert.gtExtract DownloadConvert.finishStep
    simp only [h5, h6, h7, h8, Bool.not_true, Bool.not_false, Bool.false_eq_true,
      if_false, if_true]
    split <;> (try split) <;> rfl

/-- C7 witness: concrete all-outputs-present environments for both
orchestrators. -/
theorem claim7_witness :
    GetData.process_sequence ⟨some AssetInfo.empty, none⟩
        ⟨true, false, false, false, true, false, false, false⟩ = Except.ok ⟨true, []⟩ ∧
    (DownloadConvert.process_sequence "seq" ⟨some AssetInfo.empty, none⟩
        ⟨true, false, true, false, true, false, false, false, "lbl"⟩ []).actions = [] :=
  claim7_second_run_idempotent "seq" AssetInfo.empty none
    ⟨true, false, false, false, true, false, false, false⟩
    ⟨true, false, true, false, true, false, false, false, "lbl"⟩ []
    rfl rfl rfl rfl rfl rfl rfl rfl

/-- C8: `download_convert.py` appends a sequence's metadata record exactly
when `process_sequence` returns `True`, and in that case every download or
extraction operation it performed reported success — on a `False` result
(any failed step) the accumulator is unchanged, so no record is ever
appended for a sequence on which a performed step failed. -/
theorem claim8_metadata_append_gating (sequence_id : String) (d : SequenceData)
    (env : DownloadConvert.Env) (md : List DownloadConvert.MetaRecord) :
    ((DownloadConvert.process_sequence sequence_id d env md).ok = false →
      (DownloadConvert.process_sequence sequence_id d env md).metadata = md) ∧
    ((DownloadConvert.process_sequence sequence_id d env md).ok = true →
      (DownloadConvert.process_sequence sequence_id d env md).metadata =
        md ++ [DownloadConvert.mkRecord sequence_id d env] ∧
      ∀ a ∈ (DownloadConvert.process_sequence sequence_id d env md).actions,
        DownloadConvert.actionOk env a = true) := by
  obtain ⟨h1, h2⟩ := DownloadConvert.process_sequence_stepSpec sequence_id d env md
  refine ⟨h1, fun ho => ⟨(h2 ho).1, fun a ha => ?_⟩⟩
  rcases (h2 ho).2 a ha with h | h
  · simp at h
  · exact h

/-- C8 witness: with a fully available environment, the record is appended
and every performed operation succeeded. -/
theorem claim8_witness :
    (DownloadConvert.process_sequence "seq"
        ⟨some ⟨some "v.mp4", some "http", none⟩, none⟩
        ⟨false, true, false, true, false, true, true, true, "lbl"⟩ []).metadata =
      [] ++ [DownloadConvert.mkRecord "seq"
        ⟨some ⟨some "v.mp4", some "http", none⟩, none⟩
        ⟨false, true, false, true, false, true, true, true, "lbl"⟩] ∧
    ∀ a ∈ (DownloadConvert.process_sequence "seq"
        ⟨some ⟨some "v.mp4", some "http", none⟩, none⟩
        ⟨false, true, false, true, false, true, true, true, "lbl"⟩ []).actions,
      DownloadConvert.actionOk
        ⟨false, true, false, true, false, true, true, true, "lbl"⟩ a = true :=
  (claim8_metadata_append_gating "seq" ⟨some ⟨some "v.mp4", some "http", none⟩, none⟩
    ⟨false, true, false, true, false, true, true, true, "lbl"⟩ []).2 rfl

/-- C9 (amended): for every metadata record whose frames directory exists,
the manifest builder emits exactly one entry per recognized image (case
insensitive `.png`/`.jpg`/`.jpeg`, listed in sorted order), each with the
identifier `sequence_id ++ "_" ++ basename`; a missing directory or an empty
recognized-image list contributes zero entries and leaves the rest of the
build untouched.  The identifiers are pairwise distinct whenever the
images' extension-stripped basenames are distinct — two images differing
only in their extension collide (see the counterexample). -/
theorem claim9_manifest_entries (row : DownloadConvert.MetaRecord)
    (files : List String)
    (pre post : List (DownloadConvert.MetaRecord × Option (List String)))
    (ex : String → Bool) :
    DownloadConvert.entriesForRecord row none ex = [] ∧
    (DownloadConvert.entriesForRecord row (some files) (fun _ => true)).map
        DownloadConvert.Sample.id =
      (sortStrings (files.filter DownloadConvert.recognizedImage)).map
        (fun f => row.sequence_id ++ "_" ++ splitextBase f) ∧
    (DownloadConvert.entriesForRecord row (some files) (fun _ => true)).length =
      (files.filter DownloadConvert.recognizedImage).length ∧
    (((files.filter DownloadConvert.recognizedImage).map splitextBase).Nodup →
      ((DownloadConvert.entriesForRecord row (some files) (fun _ => true)).map
        DownloadConvert.Sample.id).Nodup) ∧
    DownloadConvert.convert_metadata_to_llava_json (pre ++ (row, none) :: post) ex =
      DownloadConvert.convert_metadata_to_llava_json pre ex ++
        DownloadConvert.convert_metadata_to_llava_json post ex := by
  have hperm : (sortStrings (files.filter DownloadConvert.recognizedImage)).Perm
      (files.filter DownloadConvert.recognizedImage) := sortStrings_perm _
  have hred : DownloadConvert.entriesForRecord row (some files) (fun _ => true) =
      (sortStrings (files.filter DownloadConvert.recognizedImage)).map
        (DownloadConvert.mkSample row) := by
    simp only [DownloadConvert.entriesForRecord]
    rw [filter_const_true]
  have hmapid : (DownloadConvert.entriesForRecord row (some files) (fun _ => true)).map
      DownloadConvert.Sample.id =
      (sortStrings (files.filter DownloadConvert.recognizedImage)).map
        (fun f => row.sequence_id ++ "_" ++ splitextBase f) := by
    rw [hred, List.map_map]
    rfl
  refine ⟨rfl, hmapid, ?_, fun hnd => ?_, ?_⟩
  · rw [hred, List.length_map, length_sortStrings]
  · rw [hmapid]
    have hbase : ((sortStrings (files.filter DownloadConvert.recognizedImage)).map
        splitextBase).Nodup := ((hperm.map splitextBase).nodup_iff).mpr hnd
    have hmapcomp : (sortStrings (files.filter DownloadConvert.recognizedImage)).map
        (fun f => row.sequence_id ++ "_" ++ splitextBase f) =
        ((sortStrings (files.filter DownloadConvert.recognizedImage)).map
          splitextBase).map (fun b => row.sequence_id ++ "_" ++ b) := by
      rw [List.map_map]
      rfl
    rw [hmapcomp]
    refine hbase.map ?_
    intro a b h
    have hb : row.sequence_id ++ "_" ++ a = row.sequence_id ++ "_" ++ b := h
    exact string_append_left_cancel hb
  · unfold DownloadConvert.convert_metadata_to_llava_json
    rw [List.flatMap_append, List.flatMap_cons]
    simp [DownloadConvert.entriesForRecord]

/-- C9 witness: two recognized images with distinct basenames yield distinct
identifiers. -/
theorem claim9_witness :
    ((DownloadConvert.entriesForRecord ⟨"seq", "lbl", "images"⟩
        (some ["b.jpg", "a.jpg"]) (fun _ => true)).map
      DownloadConvert.Sample.id).Nodup :=
  (claim9_manifest_entries ⟨"seq", "lbl", "images"⟩ ["b.jpg", "a.jpg"] [] []
    (fun _ => true)).2.2.2.1 (by decide)

/-- C9 counterexample: a frames directory holding `a.jpg` and `a.png` — two
distinct recognized images — produces two manifest entries whose identifiers
are both `"seq_a"`: the identifiers are not pairwise distinct within the
record, contrary to the claim. -/
theorem claim9_counterexample :
    (DownloadConvert.entriesForRecord ⟨"seq", "lbl", "images"⟩
        (some ["a.jpg", "a.png"]) (fun _ => true)).map DownloadConvert.Sample.id =
      ["seq_a", "seq_a"] ∧
    ¬ ((DownloadConvert.entriesForRecord ⟨"seq", "lbl", "images"⟩
        (some ["a.jpg", "a.png"]) (fun _ => true)).map DownloadConvert.Sample.id).Nodup ∧
    (DownloadConvert.entriesForRecord ⟨"seq", "lbl", "images"⟩
        (some ["a.jpg", "a.png"]) (fun _ => true)).length = 2 := by
  refine ⟨by decide, by decide, by decide⟩

/-- C10: a sequence of the JSONL preparation pass contributes an entry iff
its annotation and frames directories exist, its frames directory holds
exactly 8 files ending in `.jpg`, and some `object_uid` of its
`2d_bounding_box.csv` belongs to an instance whose `motion_type` is
case-insensitively `dynamic`; and the pass examines every sequence — a
skipped sequence never aborts it. -/
theorem claim10_jsonl_gating (fs : PrepareData.PrepFS)
    (seqs : List PrepareData.PrepFS) :
    PrepareData.prepareSeq fs =
      (fs.annotationsDirExists && fs.framesDirExists &&
        ((fs.framesListing.filter (fun f => strEndsWith f ".jpg")).length == 8) &&
        PrepareData.dynamicPresentBool fs.instancesFile fs.bboxUids) ∧
    (PrepareData.prepare_dataset seqs).length = seqs.length := by
  constructor
  · have hlen := length_sortStrings (fs.framesListing.filter (fun f => strEndsWith f ".jpg"))
    have hdyn := listDyn_isEmpty fs.instancesFile fs.bboxUids
    unfold PrepareData.prepareSeq PrepareData.create_jsonl_entry
    rw [hlen]
    cases ha : fs.annotationsDirExists with
    | false => simp [ha]
    | true =>
      cases hf : fs.framesDirExists with
      | false => simp [ha, hf]
      | true =>
        simp only [ha, hf, Bool.and_self, Bool.not_true, Bool.false_eq_true, if_false,
          Bool.true_and]
        cases h8 : ((fs.framesListing.filter (fun f => strEndsWith f ".jpg")).length == 8) with
        | false => simp [bne, h8]
        | true =>
          simp only [bne, h8, Bool.not_true, Bool.false_eq_true, if_false, Bool.true_and]
          cases hp : PrepareData.dynamicPresentBool fs.instancesFile fs.bboxUids with
          | false =>
            rw [hp] at hdyn
            simp only [Bool.not_false] at hdyn
            simp [hdyn]
          | true =>
            rw [hp] at hdyn
            simp only [Bool.not_true] at hdyn
            simp [hdyn]
  · simp [PrepareData.prepare_dataset]
